import Mathlib

/-!
Shallow embedding of `s3_regions.py` (S3 bucket accessibility checker).

The embedding models, faithfully to the Python source:
- `_variations` : the name-variation generator (list of string transforms,
  deduplicated preserving first occurrence, as `list(dict.fromkeys(v))`);
- `_endpoints`  : the endpoint synthesizer (generator over protocols and
  endpoint shapes);
- the Discovery Ledger state (`CHECKED_SET`, `FOUND_BUCKETS`, `BASE_FOUND`,
  `FOUND_FLAG`) and its operations (`_mark_found`, the checked-set
  test-and-insert at the top of `_web_check`);
- `_web_check`  : the Direct-Protocol probe step, with network effects
  abstracted as oracles and the issued requests returned as a trace;
- `_cli_probe`  : the External-Tool probe loop, with subprocess calls
  abstracted as oracles and the issued invocations returned as a trace.
-/

namespace S3Regions

/-- Python's substring test `sub in s`, on the underlying character lists. -/
def strContains (s sub : String) : Bool :=
  decide (sub.data <:+: s.data)

/-- Python's single-character `str.replace(a, b)` (replaces every occurrence). -/
def pyReplace (s : String) (a b : Char) : String :=
  String.mk (s.data.map (fun c => if c = a then b else c))

/-- Helper for `dedupFirst`: drop elements already seen, keeping first
occurrences in order. -/
def dedupFirstAux (seen : List String) : List String → List String
  | [] => []
  | x :: xs =>
    if x ∈ seen then dedupFirstAux seen xs
    else x :: dedupFirstAux (x :: seen) xs

/-- Python's `list(dict.fromkeys(v))`: deduplicate keeping the first
occurrence of each element, preserving order. -/
def dedupFirst (l : List String) : List String :=
  dedupFirstAux [] l

/-- `_variations` from `s3_regions.py`: the fixed catalogue of name
transforms applied to the base `b`, deduplicated preserving order. -/
def _variations (b : String) : List String :=
  dedupFirst [
    b,
    "www." ++ b,
    b ++ "-www",
    b ++ ".com",
    "www." ++ b ++ ".com",
    b ++ "-com",
    "www-" ++ b ++ "-com",
    b ++ "-dev",
    b ++ "-staging",
    b ++ "-test",
    b ++ "-qa",
    b ++ "-prod",
    "dev-" ++ b,
    "staging-" ++ b,
    "test-" ++ b,
    "qa-" ++ b,
    "prod-" ++ b,
    b ++ "-logs",
    b ++ "-backups",
    b ++ "-archive",
    b ++ "-resources",
    b ++ "-files",
    b ++ "-images",
    b ++ "-static",
    b ++ "-uploads",
    b ++ "-cdn",
    b ++ "-content",
    b ++ "-assets",
    b ++ "-config",
    b ++ "-data",
    b ++ "-api",
    "cdn-" ++ b,
    "files-" ++ b,
    "uploads-" ++ b,
    "static-" ++ b,
    "assets-" ++ b,
    "logs-" ++ b,
    "backups-" ++ b,
    "archive-" ++ b,
    "resources-" ++ b,
    "s1-" ++ b,
    "s2-" ++ b,
    "s3-" ++ b,
    b ++ "-s1",
    b ++ "-s2",
    b ++ "-s3",
    "s3-" ++ b,
    pyReplace b '_' '-',
    pyReplace b '-' '_',
    b ++ "-app",
    "app-" ++ b,
    b ++ "-service",
    "service-" ++ b,
    b ++ "-storage",
    b ++ "-dist",
    b ++ "-v1",
    b ++ "-v2",
    b ++ "-old",
    b ++ "-new",
    "v1-" ++ b,
    "v2-" ++ b,
    b ++ ".com-dev",
    b ++ ".com-test",
    b ++ ".com-prod",
    "dev-" ++ b ++ ".com",
    "test-" ++ b ++ ".com",
    "prod-" ++ b ++ ".com",
    pyReplace b '.' '-',
    "www-" ++ pyReplace b '.' '-',
    pyReplace b '.' '-' ++ "-dev",
    pyReplace b '.' '-' ++ "-prod",
    pyReplace b '.' '-' ++ "-logs",
    pyReplace b '.' '-' ++ "-assets"
  ]

/-- The fixed `REGIONS` list. -/
def REGIONS : List String := [
  "us-east-1",  "us-east-2",  "us-west-1",  "us-west-2",
  "af-south-1", "ap-east-1",  "ap-southeast-1", "ap-southeast-2",
  "ap-southeast-3", "ap-northeast-1", "ap-northeast-2", "ap-northeast-3",
  "ap-south-1", "ca-central-1",
  "cn-north-1", "cn-northwest-1",
  "eu-central-1", "eu-west-1", "eu-west-2", "eu-west-3",
  "eu-north-1", "eu-south-1",
  "me-south-1", "me-central-1",
  "sa-east-1",
  "us-gov-east-1", "us-gov-west-1",
  "us-iso-east-1", "us-iso-west-1", "us-isob-east-1"
]

/-- The body of the `for proto in ("http", "https")` loop of `_endpoints`,
for one protocol. `region` is `str | None` in Python; `if not region:` is
Python truthiness, false for both `None` and `""`. -/
def protoEndpoints (proto bucket : String) (region : Option String) :
    List String :=
  (proto ++ "://" ++ bucket) ::
  (match region with
   | none =>
     [proto ++ "://" ++ bucket ++ ".s3.amazonaws.com",
      proto ++ "://s3.amazonaws.com/" ++ bucket]
   | some r =>
     if r = "" then
       [proto ++ "://" ++ bucket ++ ".s3.amazonaws.com",
        proto ++ "://s3.amazonaws.com/" ++ bucket]
     else
       [proto ++ "://" ++ bucket ++ ".s3." ++ r ++ ".amazonaws.com",
        proto ++ "://s3." ++ r ++ ".amazonaws.com/" ++ bucket,
        proto ++ "://" ++ bucket ++ ".s3-" ++ r ++ ".amazonaws.com",
        proto ++ "://s3-" ++ r ++ ".amazonaws.com/" ++ bucket,
        proto ++ "://" ++ bucket ++ ".s3-website." ++ r ++ ".amazonaws.com",
        proto ++ "://s3-website." ++ r ++ ".amazonaws.com/" ++ bucket,
        proto ++ "://s3-website-" ++ r ++ ".amazonaws.com/" ++ bucket,
        proto ++ "://" ++ bucket ++ ".s3-website-" ++ r ++ ".amazonaws.com",
        proto ++ "://" ++ bucket ++ ".s3.dualstack." ++ r ++ ".amazonaws.com",
        proto ++ "://s3.dualstack." ++ r ++ ".amazonaws.com/" ++ bucket])

/-- `_endpoints(bucket, region)` from `s3_regions.py`, as the finite list the
generator yields: protocol outer loop, then endpoint shapes. -/
def _endpoints (bucket : String) (region : Option String) : List String :=
  (["http", "https"]).flatMap (fun proto => protoEndpoints proto bucket region)

/-- The mutable global scan state of `s3_regions.py`:
`STOP_ALL`, `CHECKED_SET`, `FOUND_BUCKETS`, `BASE_FOUND`, `FOUND_FLAG`.
`FOUND_BUCKETS` (a Python dict of sets) is modelled as an insertion-ordered
association list from bucket name to region list without duplicates. -/
structure ScanState where
  stop : Bool
  checkedSet : List String
  foundBuckets : List (String × List String)
  baseFound : Bool
  foundFlag : Bool
deriving Repr, DecidableEq

/-- `bucket in FOUND_BUCKETS` (dict key membership). -/
def containsKey (m : List (String × List String)) (k : String) : Bool :=
  m.any (fun p => p.1 == k)

/-- `FOUND_BUCKETS[bucket]`, with a missing key read as the empty set. -/
def regionsOf (m : List (String × List String)) (k : String) : List String :=
  match m.find? (fun p => p.1 == k) with
  | some p => p.2
  | none => []

/-- `FOUND_BUCKETS.setdefault(bucket, set())`: insert an empty entry at the
end when the key is absent. -/
def setdefault (m : List (String × List String)) (k : String) :
    List (String × List String) :=
  if containsKey m k then m else m ++ [(k, [])]

/-- `FOUND_BUCKETS[bucket].add(region)` (set add: no-op when present). -/
def addRegion (m : List (String × List String)) (k r : String) :
    List (String × List String) :=
  m.map (fun p =>
    if p.1 == k then (p.1, if r ∈ p.2 then p.2 else p.2 ++ [r]) else p)

/-- `_mark_found(bucket, region)` from `s3_regions.py`. `base` is the global
`BASE`. Python truthiness: `if bucket:` and `if region:` are false for both
`None` and `""`; `bucket == BASE` is false when `bucket` is `None`. -/
def _mark_found (base : String) (st : ScanState)
    (bucket region : Option String) : ScanState :=
  let st := { st with foundFlag := true }
  let st :=
    match bucket with
    | some b =>
      if b ≠ "" then
        let m := setdefault st.foundBuckets b
        let m :=
          match region with
          | some r => if r ≠ "" then addRegion m b r else m
          | none => m
        { st with foundBuckets := m }
      else st
    | none => st
  if bucket = some base then { st with baseFound := true } else st

/-- `TEST_FILENAME`. -/
def TEST_FILENAME : String := "Bug-Bounty-From-Production-Exploiter.txt"

/-- Outcome of the response classification in `_web_check` (lines 536-544):
`bucket_accessible`/`label` as a three-way class. -/
inductive WebClass where
  | AccessibleDeniedButPresent
  | AccessibleListing
  | NotAccessible
deriving Repr, DecidableEq

/-- Lines 539-544 of `_web_check`: classify the fetched `(status, body)`. -/
def classifyWeb (status : Nat) (body : String) : WebClass :=
  if status = 403 && strContains body "AccessDenied"
      && !(strContains body "NoSuchBucket" || strContains body "InvalidBucketName") then
    .AccessibleDeniedButPresent
  else if status = 200 && strContains body "<ListBucketResult xmlns="
      && !(strContains body "NoSuchBucket" || strContains body "InvalidBucketName") then
    .AccessibleListing
  else
    .NotAccessible

/-- Run-level configuration read by both probe channels:
`VARIATIONS`, `BASE`, `test_put`, `test_delete`, `test_content`. -/
structure Config where
  variations : List String
  base : String
  testPut : Bool
  testDelete : Bool
  testContent : String

/-- An external request issued by a probe step: an HTTP request of
`_web_check` or an `aws` subprocess invocation of `_cli_probe`. -/
inductive Req where
  | httpGet (url : String)
  | httpPut (url body : String)
  | httpDelete (url : String)
  | cliLs (bucket : String) (region : Option String)
  | cliPut (bucket : String) (region : Option String)
  | cliGet (bucket : String) (region : Option String)
  | cliRm (bucket : String) (region : Option String)
deriving Repr, DecidableEq

/-- Network oracle for `_web_check`: `fetch` is `_fetch` (which catches every
exception, so it is total); the object-operation oracles return `none` when
`urlopen` raises, `some status` otherwise. -/
structure WebEnv where
  fetch : String → Nat × String
  putStatus : String → Option Nat
  getStatus : String → Option Nat
  delStatus : String → Option Nat

/-- Python `url.rstrip("/")`. -/
def rstripSlash (s : String) : String :=
  String.mk ((s.data.reverse.dropWhile (fun c => c = '/')).reverse)

/-- Lines 589-595 of `_web_check`: the candidate name recorded for a finding
at `url` — the first entry of `VARIATIONS` occurring as a substring of the
URL, with `bucket_name or BASE` falling back to `BASE` (Python truthiness). -/
def resolveCandidate (variations : List String) (base url : String) : String :=
  match variations.find? (fun v => strContains url v) with
  | some v => if v = "" then base else v
  | none => base

/-- `object_url` of `_web_check` (line 547). -/
def objectUrl (url : String) : String :=
  rstripSlash url ++ "/" ++ TEST_FILENAME

/-- `put_ok` of `_web_check` (lines 552-565): PUT is attempted only when
`test_put`; success is status 200, 201 or 204; an exception means failure. -/
def webPutOk (cfg : Config) (env : WebEnv) (url : String) : Bool :=
  cfg.testPut &&
    (match env.putStatus (objectUrl url) with
     | some s => s = 200 || s = 201 || s = 204
     | none => false)

/-- `get_ok` of `_web_check` (lines 567-575): GET is attempted only when
`put_ok`; success is status 200. -/
def webGetOk (cfg : Config) (env : WebEnv) (url : String) : Bool :=
  webPutOk cfg env url &&
    (match env.getStatus (objectUrl url) with
     | some s => s = 200
     | none => false)

/-- `del_ok` of `_web_check` (lines 577-585): DELETE is attempted only when
`test_delete` and `put_ok`; success is status 200 or 204. -/
def webDelOk (cfg : Config) (env : WebEnv) (url : String) : Bool :=
  cfg.testDelete && webPutOk cfg env url &&
    (match env.delStatus (objectUrl url) with
     | some s => s = 200 || s = 204
     | none => false)

/-- `bucket_accessible` of `_web_check` (lines 536-544). -/
def webAccessible (env : WebEnv) (url : String) : Bool :=
  match classifyWeb (env.fetch url).1 (env.fetch url).2 with
  | .NotAccessible => false
  | _ => true

/-- The HTTP requests `_web_check` issues on `url` once past the gate: the
listing GET, then PUT/GET/DELETE on the object URL, gated as in the source. -/
def webReqs (cfg : Config) (env : WebEnv) (url : String) : List Req :=
  Req.httpGet url ::
    ((if cfg.testPut then [Req.httpPut (objectUrl url) cfg.testContent] else [])
     ++ (if webPutOk cfg env url then [Req.httpGet (objectUrl url)] else [])
     ++ (if cfg.testDelete && webPutOk cfg env url then
           [Req.httpDelete (objectUrl url)] else []))

/-- The body of `_web_check` after the checked-set gate (lines 534-618),
run on the state `st1` in which the URL is already marked checked. -/
def webCheckBody (cfg : Config) (env : WebEnv) (st1 : ScanState) (url : String) :
    ScanState × List Req :=
  if webAccessible env url || webPutOk cfg env url || webGetOk cfg env url
      || webDelOk cfg env url then
    (_mark_found cfg.base st1
      (some (resolveCandidate cfg.variations cfg.base url)) none,
      webReqs cfg env url)
  else
    (st1, webReqs cfg env url)

/-- `_web_check(url)`: the full Direct-Protocol probe step. Network I/O is
abstracted by `env`; returns the new state and the trace of requests issued.
Logging is omitted (console I/O). -/
def _web_check (cfg : Config) (env : WebEnv) (st : ScanState) (url : String) :
    ScanState × List Req :=
  if url ∈ st.checkedSet ∨ st.stop then (st, [])
  else webCheckBody cfg env { st with checkedSet := url :: st.checkedSet } url

/-- Sequentialized dispatch of `_web_check` over a list of URLs, as
`_run_web` submits them. -/
def runWebChecks (cfg : Config) (env : WebEnv) (st : ScanState) :
    List String → ScanState
  | [] => st
  | u :: us => runWebChecks cfg env (_web_check cfg env st u).1 us

/-- Characters matched by Python's regex `\s` (ASCII range). -/
def isPySpace (c : Char) : Bool :=
  c = ' ' || c = '\t' || c = '\n' || c = '\r' || c = '\x0b' || c = '\x0c'

/-- Consume a literal character sequence, or fail. -/
def dropLit : List Char → List Char → Option (List Char)
  | [], l => some l
  | _ :: _, [] => none
  | c :: cs, d :: ds => if c = d then dropLit cs ds else none

/-- Consume `\s+` (one or more whitespace characters), or fail. -/
def dropSpaces1 : List Char → Option (List Char)
  | [] => none
  | d :: ds => if isPySpace d then some (ds.dropWhile isPySpace) else none

/-- Match `TOTAL_RE` = `Total\s+Objects:\s+(\d+)` anchored at the start. -/
def matchTotalAt (l : List Char) : Bool :=
  match dropLit "Total".data l with
  | none => false
  | some l1 =>
    match dropSpaces1 l1 with
    | none => false
    | some l2 =>
      match dropLit "Objects:".data l2 with
      | none => false
      | some l3 =>
        match dropSpaces1 l3 with
        | none => false
        | some l4 =>
          match l4 with
          | d :: _ => d.isDigit
          | [] => false

/-- `TOTAL_RE.search(out)` is not `None`: the pattern matches at some
position of `out`. -/
def totalReMatches (s : String) : Bool :=
  go s.data
where
  go : List Char → Bool
    | [] => false
    | c :: rest => matchTotalAt (c :: rest) || go rest

/-- Subprocess oracle for `_cli_probe`: each `aws` invocation either
succeeds with its stdout (`Except.ok out`) or raises
`CalledProcessError` carrying its output (`Except.error out`). -/
structure CliEnv where
  ls : String → Option String → Except String String
  cpPut : String → Option String → Except String String
  cpGet : String → Option String → Except String String
  rm : String → Option String → Except String String

/-- The skip test at line 368 of `_cli_probe`:
`bucket in FOUND_BUCKETS and (region is None or region in FOUND_BUCKETS[bucket])`. -/
def cliSkip (found : List (String × List String)) (bucket : String)
    (region : Option String) : Bool :=
  containsKey found bucket &&
    (match region with
     | none => true
     | some r => decide (r ∈ regionsOf found bucket))

/-- `subprocess.check_output` succeeded (no `CalledProcessError`). -/
def exceptOk : Except String String → Bool
  | .ok _ => true
  | .error _ => false

/-- `label` of `_cli_probe` (line 371): `"No Region"` for the `None` region. -/
def cliLabel (region : Option String) : String :=
  match region with | none => "No Region" | some r => r

/-- `bucket_accessible` of `_cli_probe` (lines 380-387): the listing
invocation succeeded and its output matches `TOTAL_RE`. -/
def cliAccessible (env : CliEnv) (bucket : String) (region : Option String) :
    Bool :=
  match env.ls bucket region with
  | .ok out => totalReMatches out
  | .error _ => false

/-- `put_ok` of `_cli_probe` (lines 412-418). -/
def cliPutOk (cfg : Config) (env : CliEnv) (bucket : String)
    (region : Option String) : Bool :=
  cfg.testPut && exceptOk (env.cpPut bucket region)

/-- `get_ok` of `_cli_probe` (lines 420-426): attempted only when `put_ok`. -/
def cliGetOk (cfg : Config) (env : CliEnv) (bucket : String)
    (region : Option String) : Bool :=
  cliPutOk cfg env bucket region && exceptOk (env.cpGet bucket region)

/-- `del_ok` of `_cli_probe` (lines 428-434). -/
def cliDelOk (cfg : Config) (env : CliEnv) (bucket : String)
    (region : Option String) : Bool :=
  cfg.testDelete && cliPutOk cfg env bucket region
    && exceptOk (env.rm bucket region)

/-- The `aws` invocations one non-skipped iteration of `_cli_probe` issues,
gated as in the source. -/
def cliReqs (cfg : Config) (env : CliEnv) (bucket : String)
    (region : Option String) : List Req :=
  Req.cliLs bucket region ::
    ((if cfg.testPut then [Req.cliPut bucket region] else [])
     ++ (if cliPutOk cfg env bucket region then [Req.cliGet bucket region] else [])
     ++ (if cfg.testDelete && cliPutOk cfg env bucket region then
           [Req.cliRm bucket region] else []))

/-- One iteration of `_cli_probe`'s region loop (lines 361-465) for a given
`(bucket, region)`: the per-iteration stop check, the found-set skip, the
listing attempt, and the PUT/GET/DELETE attempts. Subprocess I/O abstracted
by `env`; progress/logging omitted. -/
def cliRegionStep (cfg : Config) (env : CliEnv) (st : ScanState)
    (bucket : String) (region : Option String) : ScanState × List Req :=
  if st.stop then (st, [])
  else if cliSkip st.foundBuckets bucket region then (st, [])
  else if cliAccessible env bucket region || cliPutOk cfg env bucket region
      || cliGetOk cfg env bucket region || cliDelOk cfg env bucket region then
    (_mark_found cfg.base st (some bucket) (some (cliLabel region)),
      cliReqs cfg env bucket region)
  else
    (st, cliReqs cfg env bucket region)

/-- `_cli_probe(bucket)`: the top-of-function stop check, then the region
loop over `[None] + REGIONS`. -/
def _cli_probe (cfg : Config) (env : CliEnv) (st : ScanState)
    (bucket : String) : ScanState × List Req :=
  if st.stop then (st, [])
  else
    (none :: REGIONS.map some).foldl
      (fun acc region =>
        let next := cliRegionStep cfg env acc.1 bucket region
        (next.1, acc.2 ++ next.2))
      (st, [])

/-- The program's initial shared state: nothing checked, nothing found. -/
def initialState : ScanState := ⟨false, [], [], false, false⟩

/-- A state with the cancellation flag already raised. -/
def stoppedState : ScanState := ⟨true, [], [], false, false⟩

/-- Fold of `_mark_found` over a sequence of record-finding calls. -/
def applyFindings (base : String) (st : ScanState) :
    List (Option String × Option String) → ScanState
  | [] => st
  | c :: rest => applyFindings base (_mark_found base st c.1 c.2) rest

/-- A minimal run configuration: exact name only, write tests disabled. -/
def sampleCfg : Config :=
  ⟨["examplebucket"], "examplebucket", false, false, "No write tests enabled"⟩

/-- Configuration of a `-n` run on base `"examplebucket"` with write tests
disabled. -/
def cexCfg : Config :=
  ⟨_variations "examplebucket", "examplebucket", false, false,
   "No write tests enabled"⟩

/-- Canned network in which every URL 404s and every operation raises. -/
def sampleWebEnv : WebEnv :=
  ⟨fun _ => (404, "NoSuchBucket"), fun _ => none, fun _ => none, fun _ => none⟩

/-- Canned network in which every fetch returns a 200 listing body. -/
def listingEnv : WebEnv :=
  ⟨fun _ =>
    (200, "<ListBucketResult xmlns=\x22http://s3.amazonaws.com/doc/2006-03-01/\x22>"),
   fun _ => none, fun _ => none, fun _ => none⟩

/-- Canned subprocess oracle in which every `aws` invocation fails. -/
def sampleCliEnv : CliEnv :=
  ⟨fun _ _ => Except.error "error", fun _ _ => Except.error "error",
   fun _ _ => Except.error "error", fun _ _ => Except.error "error"⟩

/- ──────────────── helper lemmas on `dedupFirst` ──────────────── -/

theorem mem_dedupFirstAux (a : String) :
    ∀ (l seen : List String),
      a ∈ dedupFirstAux seen l ↔ a ∈ l ∧ a ∉ seen := by
  intro l
  induction l with
  | nil => intro seen; simp [dedupFirstAux]
  | cons x xs ih =>
    intro seen
    unfold dedupFirstAux
    by_cases hx : x ∈ seen
    · rw [if_pos hx, ih]
      constructor
      · rintro ⟨h1, h2⟩
        exact ⟨List.mem_cons_of_mem _ h1, h2⟩
      · rintro ⟨h1, h2⟩
        rcases List.mem_cons.mp h1 with h1 | h1
        · exact absurd (h1 ▸ hx) h2
        · exact ⟨h1, h2⟩
    · rw [if_neg hx]
      constructor
      · intro h
        rcases List.mem_cons.mp h with h | h
        · exact ⟨h ▸ List.mem_cons_self _ _, h ▸ hx⟩
        · rcases (ih _).mp h with ⟨h1, h2⟩
          exact ⟨List.mem_cons_of_mem _ h1,
            fun hs => h2 (List.mem_cons_of_mem _ hs)⟩
      · rintro ⟨h1, h2⟩
        by_cases hax : a = x
        · exact hax ▸ List.mem_cons_self _ _
        · rcases List.mem_cons.mp h1 with h1 | h1
          · exact absurd h1 hax
          · exact List.mem_cons_of_mem _ ((ih _).mpr
              ⟨h1, fun hs => (List.mem_cons.mp hs).elim hax h2⟩)

theorem mem_of_mem_dedupFirst {a : String} {l : List String}
    (h : a ∈ dedupFirst l) : a ∈ l :=
  ((mem_dedupFirstAux a l []).mp h).1

theorem mem_dedupFirst_of_mem {a : String} {l : List String}
    (h : a ∈ l) : a ∈ dedupFirst l :=
  (mem_dedupFirstAux a l []).mpr ⟨h, by simp⟩

theorem nodup_dedupFirstAux :
    ∀ (l seen : List String), (dedupFirstAux seen l).Nodup := by
  intro l
  induction l with
  | nil => intro seen; simp [dedupFirstAux]
  | cons x xs ih =>
    intro seen
    unfold dedupFirstAux
    by_cases hx : x ∈ seen
    · rw [if_pos hx]
      exact ih _
    · rw [if_neg hx]
      refine List.nodup_cons.mpr ⟨?_, ih _⟩
      intro hmem
      exact ((mem_dedupFirstAux x xs (x :: seen)).mp hmem).2
        (List.mem_cons_self _ _)

theorem nodup_dedupFirst (l : List String) : (dedupFirst l).Nodup :=
  nodup_dedupFirstAux l []

theorem dedupFirst_cons (x : String) (xs : List String) :
    dedupFirst (x :: xs) = x :: dedupFirstAux [x] xs := by
  unfold dedupFirst
  conv_lhs => rw [dedupFirstAux]
  rw [if_neg (List.not_mem_nil x)]

/- ──────────────── helper lemmas on the found-map operations ──────────────── -/

theorem containsKey_cons (p : String × List String)
    (m : List (String × List String)) (c : String) :
    containsKey (p :: m) c = (p.1 == c || containsKey m c) := rfl

theorem regionsOf_cons (p : String × List String)
    (m : List (String × List String)) (c : String) :
    regionsOf (p :: m) c = if p.1 = c then p.2 else regionsOf m c := by
  unfold regionsOf
  by_cases h : p.1 = c
  · rw [List.find?_cons_of_pos _ (by simp [h]), if_pos h]
  · rw [List.find?_cons_of_neg _ (by simp [h]), if_neg h]

theorem addRegion_cons (p : String × List String)
    (m : List (String × List String)) (k r : String) :
    addRegion (p :: m) k r =
      (if p.1 == k then (p.1, if r ∈ p.2 then p.2 else p.2 ++ [r]) else p)
        :: addRegion m k r := rfl

theorem containsKey_setdefault_self (m : List (String × List String))
    (k : String) : containsKey (setdefault m k) k = true := by
  unfold setdefault
  split
  · assumption
  · simp [containsKey]

theorem containsKey_setdefault_of_containsKey
    (m : List (String × List String)) (k c : String)
    (h : containsKey m c = true) :
    containsKey (setdefault m k) c = true := by
  unfold setdefault
  split
  · exact h
  · simp [containsKey] at h ⊢
    exact Or.inl h

theorem regionsOf_setdefault (m : List (String × List String)) (k c : String) :
    regionsOf (setdefault m k) c = regionsOf m c := by
  unfold setdefault
  split
  · rfl
  · next hck =>
    unfold regionsOf
    rw [List.find?_append]
    cases hf : m.find? (fun p => p.1 == c) with
    | some p => simp
    | none =>
      by_cases hkc : k = c
      · subst hkc
        simp
      · have hb : (k == c) = false := by simp [hkc]
        simp [List.find?, hb]

theorem containsKey_addRegion (m : List (String × List String)) (k r c : String) :
    containsKey (addRegion m k r) c = containsKey m c := by
  induction m with
  | nil => rfl
  | cons p m ih =>
    rw [addRegion_cons, containsKey_cons, containsKey_cons, ih]
    by_cases hpk : p.1 = k
    · simp [hpk]
    · simp [hpk]

theorem mem_regionsOf_addRegion (m : List (String × List String))
    (k r c a : String) (h : a ∈ regionsOf m c) :
    a ∈ regionsOf (addRegion m k r) c := by
  induction m with
  | nil => simp [regionsOf] at h
  | cons p m ih =>
    rw [regionsOf_cons] at h
    rw [addRegion_cons]
    by_cases hpk : p.1 = k
    · rw [if_pos (by simp [hpk]), regionsOf_cons]
      by_cases hpc : p.1 = c
      · rw [if_pos hpc]
        rw [if_pos hpc] at h
        split
        · exact h
        · exact List.mem_append_left _ h
      · rw [if_neg hpc]
        rw [if_neg hpc] at h
        exact ih h
    · rw [if_neg (by simp [hpk]), regionsOf_cons]
      by_cases hpc : p.1 = c
      · rw [if_pos hpc]
        rw [if_pos hpc] at h
        exact h
      · rw [if_neg hpc]
        rw [if_neg hpc] at h
        exact ih h

theorem regionsOf_addRegion_self (m : List (String × List String))
    (k r : String) (h : containsKey m k = true) :
    r ∈ regionsOf (addRegion m k r) k := by
  induction m with
  | nil => simp [containsKey] at h
  | cons p m ih =>
    rw [containsKey_cons] at h
    rw [addRegion_cons]
    by_cases hpk : p.1 = k
    · rw [if_pos (by simp [hpk]), regionsOf_cons, if_pos hpk]
      split
      · assumption
      · exact List.mem_append_right _ (by simp)
    · rw [if_neg (by simp [hpk]), regionsOf_cons, if_neg hpk]
      simp only [Bool.or_eq_true, beq_iff_eq, hpk, false_or] at h
      exact ih h

/- ──────────────── helper lemmas on `_mark_found` ──────────────── -/

theorem mark_found_checkedSet (base : String) (st : ScanState)
    (bu r : Option String) :
    (_mark_found base st bu r).checkedSet = st.checkedSet := by
  unfold _mark_found
  cases bu with
  | none => simp
  | some b =>
    cases r with
    | none => by_cases hb : b = "" <;> simp [hb] <;> split <;> rfl
    | some reg =>
      by_cases hb : b = "" <;> by_cases hr : reg = "" <;>
        simp [hb, hr] <;> split <;> rfl

theorem mark_found_stop (base : String) (st : ScanState)
    (bu r : Option String) :
    (_mark_found base st bu r).stop = st.stop := by
  unfold _mark_found
  cases bu with
  | none => simp
  | some b =>
    cases r with
    | none => by_cases hb : b = "" <;> simp [hb] <;> split <;> rfl
    | some reg =>
      by_cases hb : b = "" <;> by_cases hr : reg = "" <;>
        simp [hb, hr] <;> split <;> rfl

theorem mark_found_foundBuckets_none_region (base : String) (st : ScanState)
    (b : String) (hb : b ≠ "") :
    (_mark_found base st (some b) none).foundBuckets =
      setdefault st.foundBuckets b := by
  unfold _mark_found
  simp [hb]
  split <;> rfl

theorem mark_found_foundBuckets_some_region (base : String) (st : ScanState)
    (b reg : String) (hb : b ≠ "") (hr : reg ≠ "") :
    (_mark_found base st (some b) (some reg)).foundBuckets =
      addRegion (setdefault st.foundBuckets b) b reg := by
  unfold _mark_found
  simp [hb, hr]
  split <;> rfl

theorem mark_found_foundBuckets_some_empty_region (base : String)
    (st : ScanState) (b : String) (hb : b ≠ "") :
    (_mark_found base st (some b) (some "")).foundBuckets =
      setdefault st.foundBuckets b := by
  unfold _mark_found
  simp [hb]
  split <;> rfl

theorem mark_found_baseFound_of_base (base : String) (st : ScanState)
    (r : Option String) :
    (_mark_found base st (some base) r).baseFound = true := by
  unfold _mark_found
  simp

theorem mark_found_foundBuckets_cases (base : String) (st : ScanState)
    (bu r : Option String) :
    (_mark_found base st bu r).foundBuckets = st.foundBuckets ∨
    (∃ b, bu = some b ∧
      (_mark_found base st bu r).foundBuckets = setdefault st.foundBuckets b) ∨
    (∃ b reg, bu = some b ∧ r = some reg ∧
      (_mark_found base st bu r).foundBuckets =
        addRegion (setdefault st.foundBuckets b) b reg) := by
  unfold _mark_found
  cases bu with
  | none =>
    left
    simp
  | some b =>
    by_cases hb : b = ""
    · left
      simp [hb]
      split <;> rfl
    · cases r with
      | none =>
        right; left
        exact ⟨b, rfl, by simp [hb]; split <;> rfl⟩
      | some reg =>
        by_cases hr : reg = ""
        · right; left
          exact ⟨b, rfl, by simp [hb, hr]; split <;> rfl⟩
        · right; right
          exact ⟨b, reg, rfl, rfl, by simp [hb, hr]; split <;> rfl⟩

theorem containsKey_mark_found (base : String) (st : ScanState)
    (bu r : Option String) (c : String)
    (h : containsKey st.foundBuckets c = true) :
    containsKey (_mark_found base st bu r).foundBuckets c = true := by
  rcases mark_found_foundBuckets_cases base st bu r with
    heq | ⟨b, _, heq⟩ | ⟨b, reg, _, _, heq⟩
  · rw [heq]; exact h
  · rw [heq]; exact containsKey_setdefault_of_containsKey _ _ _ h
  · rw [heq, containsKey_addRegion]
    exact containsKey_setdefault_of_containsKey _ _ _ h

theorem mem_regionsOf_mark_found (base : String) (st : ScanState)
    (bu r : Option String) (c a : String)
    (h : a ∈ regionsOf st.foundBuckets c) :
    a ∈ regionsOf (_mark_found base st bu r).foundBuckets c := by
  rcases mark_found_foundBuckets_cases base st bu r with
    heq | ⟨b, _, heq⟩ | ⟨b, reg, _, _, heq⟩
  · rw [heq]; exact h
  · rw [heq, regionsOf_setdefault]; exact h
  · rw [heq]
    exact mem_regionsOf_addRegion _ _ _ _ _ (by rw [regionsOf_setdefault]; exact h)

/- ──────────────── helper lemmas on `_web_check` ──────────────── -/

theorem regionsOf_mark_found_none (base : String) (st : ScanState)
    (bu : Option String) (c : String) :
    regionsOf (_mark_found base st bu none).foundBuckets c =
      regionsOf st.foundBuckets c := by
  rcases mark_found_foundBuckets_cases base st bu none with
    h | ⟨b, _, h⟩ | ⟨b, reg, _, hr, _⟩
  · rw [h]
  · rw [h, regionsOf_setdefault]
  · cases hr

theorem webCheckBody_state_cases (cfg : Config) (env : WebEnv)
    (st1 : ScanState) (url : String) :
    (webCheckBody cfg env st1 url).1 = st1 ∨
    (webCheckBody cfg env st1 url).1 =
      _mark_found cfg.base st1
        (some (resolveCandidate cfg.variations cfg.base url)) none := by
  unfold webCheckBody
  split
  · exact Or.inr rfl
  · exact Or.inl rfl

theorem webCheckBody_issues_fetch (cfg : Config) (env : WebEnv)
    (st1 : ScanState) (url : String) :
    Req.httpGet url ∈ (webCheckBody cfg env st1 url).2 := by
  unfold webCheckBody
  split <;> exact List.mem_cons_self _ _

theorem webCheckBody_checkedSet (cfg : Config) (env : WebEnv)
    (st1 : ScanState) (url : String) :
    ((webCheckBody cfg env st1 url).1).checkedSet = st1.checkedSet := by
  rcases webCheckBody_state_cases cfg env st1 url with h | h <;> rw [h]
  rw [mark_found_checkedSet]

theorem webCheckBody_regionsOf (cfg : Config) (env : WebEnv)
    (st1 : ScanState) (url c : String) :
    regionsOf ((webCheckBody cfg env st1 url).1).foundBuckets c =
      regionsOf st1.foundBuckets c := by
  rcases webCheckBody_state_cases cfg env st1 url with h | h <;> rw [h]
  rw [regionsOf_mark_found_none]

theorem web_check_of_checked (cfg : Config) (env : WebEnv) (st : ScanState)
    (url : String) (h : url ∈ st.checkedSet) :
    _web_check cfg env st url = (st, []) := by
  unfold _web_check
  rw [if_pos (Or.inl h)]

theorem web_check_checkedSet_of_fresh (cfg : Config) (env : WebEnv)
    (st : ScanState) (url : String) (h : ¬(url ∈ st.checkedSet ∨ st.stop = true)) :
    ((_web_check cfg env st url).1).checkedSet = url :: st.checkedSet := by
  unfold _web_check
  rw [if_neg h, webCheckBody_checkedSet]

theorem web_check_checkedSet_mono (cfg : Config) (env : WebEnv)
    (st : ScanState) (u x : String) (h : x ∈ st.checkedSet) :
    x ∈ ((_web_check cfg env st u).1).checkedSet := by
  unfold _web_check
  split
  · exact h
  · rw [webCheckBody_checkedSet]
    exact List.mem_cons_of_mem _ h

theorem runWebChecks_checkedSet_mono (cfg : Config) (env : WebEnv)
    (st : ScanState) (urls : List String) (x : String) (h : x ∈ st.checkedSet) :
    x ∈ (runWebChecks cfg env st urls).checkedSet := by
  induction urls generalizing st with
  | nil => exact h
  | cons u us ih =>
    exact ih _ (web_check_checkedSet_mono cfg env st u x h)

theorem web_check_regionsOf (cfg : Config) (env : WebEnv) (st : ScanState)
    (url c : String) :
    regionsOf ((_web_check cfg env st url).1).foundBuckets c =
      regionsOf st.foundBuckets c := by
  unfold _web_check
  split
  · rfl
  · rw [webCheckBody_regionsOf]

/- ──────────────── claim theorems ──────────────── -/

/-- C1: the Direct-Protocol response classifier judges a fetched
`(status, body)` accessible-but-denied exactly when the status is 403 and
the body contains the access-denied marker but neither the no-such-bucket
nor the invalid-name marker; accessible-listing exactly when the status is
200 and the body contains the listing-result marker but neither not-found
marker; and every other pair not accessible. -/
theorem classifyWeb_spec (status : Nat) (body : String) :
    (classifyWeb status body = WebClass.AccessibleDeniedButPresent ↔
      status = 403 ∧ strContains body "AccessDenied" = true ∧
      strContains body "NoSuchBucket" = false ∧
      strContains body "InvalidBucketName" = false) ∧
    (classifyWeb status body = WebClass.AccessibleListing ↔
      status = 200 ∧ strContains body "<ListBucketResult xmlns=" = true ∧
      strContains body "NoSuchBucket" = false ∧
      strContains body "InvalidBucketName" = false) ∧
    (classifyWeb status body = WebClass.NotAccessible ↔
      ¬(status = 403 ∧ strContains body "AccessDenied" = true ∧
        strContains body "NoSuchBucket" = false ∧
        strContains body "InvalidBucketName" = false) ∧
      ¬(status = 200 ∧ strContains body "<ListBucketResult xmlns=" = true ∧
        strContains body "NoSuchBucket" = false ∧
        strContains body "InvalidBucketName" = false)) := by
  unfold classifyWeb
  by_cases h1 : status = 403 <;> by_cases h2 : status = 200 <;>
    cases ha : strContains body "AccessDenied" <;>
    cases hl : strContains body "<ListBucketResult xmlns=" <;>
    cases hn : strContains body "NoSuchBucket" <;>
    cases hi : strContains body "InvalidBucketName" <;>
    simp_all

/-- C1 witness: the three classes at concrete canned responses. -/
theorem classifyWeb_spec_witness :
    classifyWeb 403 "AccessDenied" = WebClass.AccessibleDeniedButPresent ∧
    classifyWeb 200 "<ListBucketResult xmlns=" = WebClass.AccessibleListing ∧
    classifyWeb 404 "NoSuchBucket" = WebClass.NotAccessible :=
  ⟨(classifyWeb_spec 403 "AccessDenied").1.mpr
     ⟨rfl, by decide, by decide, by decide⟩,
   (classifyWeb_spec 200 "<ListBucketResult xmlns=").2.1.mpr
     ⟨rfl, by decide, by decide, by decide⟩,
   (classifyWeb_spec 404 "NoSuchBucket").2.2.mpr ⟨by decide, by decide⟩⟩

/-- C5: `_variations` is a pure deterministic function (equal inputs give
the same ordered list), the base is the first element, the output has no
duplicate strings, and for base `"examplebucket"` it contains
`"examplebucket-dev"`, `"dev-examplebucket"`, `"examplebucket-logs"` and
`"examplebucket.com"`. -/
theorem variations_spec (b b' : String) (hb : b ≠ "") (hbb : b' = b) :
    _variations b' = _variations b ∧
    (_variations b).head? = some b ∧
    (_variations b).Nodup ∧
    "examplebucket-dev" ∈ _variations "examplebucket" ∧
    "dev-examplebucket" ∈ _variations "examplebucket" ∧
    "examplebucket-logs" ∈ _variations "examplebucket" ∧
    "examplebucket.com" ∈ _variations "examplebucket" := by
  subst hbb
  refine ⟨rfl, ?_, nodup_dedupFirst _, ?_, ?_, ?_, ?_⟩
  · unfold _variations
    rw [dedupFirst_cons]
    rfl
  all_goals exact mem_dedupFirst_of_mem (by simp)

/-- C5 witness at base `"examplebucket"`. -/
theorem variations_spec_witness :
    (_variations "examplebucket").Nodup ∧
    "examplebucket.com" ∈ _variations "examplebucket" :=
  ⟨(variations_spec "examplebucket" "examplebucket" (by decide) rfl).2.2.1,
   (variations_spec "examplebucket" "examplebucket"
      (by decide) rfl).2.2.2.2.2.2⟩

/-- C9: `_endpoints` yields a non-empty sequence in a fixed order with the
protocol as the outer loop (the full http block, then the full https
block); it has 6 elements when no region is given (`None` or the empty
string, both falsy in the source) and 22 when a region is given.
Determinism of re-invocation holds by purity of the definition. -/
theorem endpoints_catalogue (bucket : String) (region : Option String) :
    _endpoints bucket region ≠ [] ∧
    _endpoints bucket region =
      protoEndpoints "http" bucket region
        ++ protoEndpoints "https" bucket region ∧
    (region = none → (_endpoints bucket region).length = 6) ∧
    (region = some "" → (_endpoints bucket region).length = 6) ∧
    (∀ r, region = some r → r ≠ "" →
      (_endpoints bucket region).length = 22) := by
  have hd : _endpoints bucket region =
      protoEndpoints "http" bucket region
        ++ protoEndpoints "https" bucket region := by
    unfold _endpoints
    simp
  refine ⟨?_, hd, ?_, ?_, ?_⟩
  · rw [hd]
    unfold protoEndpoints
    simp
  · intro hr; subst hr
    rw [hd]
    simp [protoEndpoints]
  · intro hr; subst hr
    rw [hd]
    simp [protoEndpoints]
  · intro r hr hne; subst hr
    rw [hd]
    simp [protoEndpoints, hne]

/-- C9 witness at `("examplebucket", none)` and
`("examplebucket", some "us-east-1")`. -/
theorem endpoints_catalogue_witness :
    (_endpoints "examplebucket" none).length = 6 ∧
    (_endpoints "examplebucket" (some "us-east-1")).length = 22 :=
  ⟨(endpoints_catalogue "examplebucket" none).2.2.1 rfl,
   (endpoints_catalogue "examplebucket" (some "us-east-1")).2.2.2.2
     "us-east-1" rfl (by decide)⟩

/-- C6: after a `_mark_found` call with a (non-empty) candidate name, the
candidate's entry exists in the found-map; a supplied (non-empty) region is
added to its region set; with no region the region set is unchanged; and
when the candidate equals the base name the base-found signal is set. -/
theorem mark_found_spec (base : String) (st : ScanState) (b : String)
    (r : Option String) (hb : b ≠ "") :
    containsKey (_mark_found base st (some b) r).foundBuckets b = true ∧
    (∀ reg, r = some reg → reg ≠ "" →
      reg ∈ regionsOf (_mark_found base st (some b) r).foundBuckets b) ∧
    (r = none →
      regionsOf (_mark_found base st (some b) r).foundBuckets b =
        regionsOf st.foundBuckets b) ∧
    (b = base → (_mark_found base st (some b) r).baseFound = true) := by
  refine ⟨?_, ?_, ?_, ?_⟩
  · cases r with
    | none =>
      rw [mark_found_foundBuckets_none_region base st b hb]
      exact containsKey_setdefault_self _ _
    | some reg =>
      by_cases hreg : reg = ""
      · subst hreg
        rw [mark_found_foundBuckets_some_empty_region base st b hb]
        exact containsKey_setdefault_self _ _
      · rw [mark_found_foundBuckets_some_region base st b reg hb hreg,
          containsKey_addRegion]
        exact containsKey_setdefault_self _ _
  · intro reg hr hreg
    subst hr
    rw [mark_found_foundBuckets_some_region base st b reg hb hreg]
    exact regionsOf_addRegion_self _ _ _ (containsKey_setdefault_self _ _)
  · intro hr
    subst hr
    rw [mark_found_foundBuckets_none_region base st b hb, regionsOf_setdefault]
  · intro hr
    subst hr
    exact mark_found_baseFound_of_base b st r

/-- C6 witness: recording `("examplebucket", "us-east-1")` from the empty
state, with `"examplebucket"` being the base name. -/
theorem mark_found_spec_witness :
    containsKey (_mark_found "examplebucket" initialState
      (some "examplebucket") (some "us-east-1")).foundBuckets
        "examplebucket" = true ∧
    "us-east-1" ∈ regionsOf (_mark_found "examplebucket" initialState
      (some "examplebucket") (some "us-east-1")).foundBuckets
        "examplebucket" ∧
    (_mark_found "examplebucket" initialState (some "examplebucket")
      (some "us-east-1")).baseFound = true :=
  ⟨(mark_found_spec "examplebucket" initialState "examplebucket"
      (some "us-east-1") (by decide)).1,
   (mark_found_spec "examplebucket" initialState "examplebucket"
      (some "us-east-1") (by decide)).2.1 "us-east-1" rfl (by decide),
   (mark_found_spec "examplebucket" initialState "examplebucket"
      (some "us-east-1") (by decide)).2.2.2 rfl⟩

/-- C8: the found-map grows monotonically under any sequence of
record-finding calls: a candidate present before the sequence is present
after it, and a region once in a candidate's set stays in it. -/
theorem ledger_monotone (base : String) (st : ScanState)
    (calls : List (Option String × Option String)) (candidate region : String) :
    (containsKey st.foundBuckets candidate = true →
      containsKey (applyFindings base st calls).foundBuckets candidate = true) ∧
    (region ∈ regionsOf st.foundBuckets candidate →
      region ∈ regionsOf (applyFindings base st calls).foundBuckets candidate) := by
  induction calls generalizing st with
  | nil => exact ⟨id, id⟩
  | cons c rest ih =>
    exact ⟨fun h => (ih _).1 (containsKey_mark_found _ _ _ _ _ h),
           fun h => (ih _).2 (mem_regionsOf_mark_found _ _ _ _ _ _ h)⟩

/-- C8 witness: an entry `("c", \x7b"r1"\x7d)` survives two further
record-finding calls. -/
theorem ledger_monotone_witness :
    containsKey (applyFindings "base" ⟨false, [], [("c", ["r1"])], false, false⟩
      [(some "d", some "r2"), (some "c", none)]).foundBuckets "c" = true ∧
    "r1" ∈ regionsOf (applyFindings "base"
      ⟨false, [], [("c", ["r1"])], false, false⟩
      [(some "d", some "r2"), (some "c", none)]).foundBuckets "c" :=
  ⟨(ledger_monotone "base" ⟨false, [], [("c", ["r1"])], false, false⟩
      [(some "d", some "r2"), (some "c", none)] "c" "r1").1 (by decide),
   (ledger_monotone "base" ⟨false, [], [("c", ["r1"])], false, false⟩
      [(some "d", some "r2"), (some "c", none)] "c" "r1").2 (by decide)⟩

/-- C7: if the cancellation flag is set when a probe step starts, both the
Direct-Protocol step and the External-Tool probe return immediately with
the state unchanged (nothing marked checked, nothing recorded) and no
network or subprocess request issued. -/
theorem stop_flag_no_side_effects (cfg : Config) (wenv : WebEnv)
    (cenv : CliEnv) (st : ScanState) (url bucket : String)
    (h : st.stop = true) :
    _web_check cfg wenv st url = (st, []) ∧
    _cli_probe cfg cenv st bucket = (st, []) := by
  constructor
  · unfold _web_check
    rw [if_pos (Or.inr h)]
  · unfold _cli_probe
    rw [if_pos h]

/-- C7 witness on a stopped state. -/
theorem stop_flag_no_side_effects_witness :
    _web_check sampleCfg sampleWebEnv stoppedState "http://examplebucket"
      = (stoppedState, []) ∧
    _cli_probe sampleCfg sampleCliEnv stoppedState "examplebucket"
      = (stoppedState, []) :=
  stop_flag_no_side_effects sampleCfg sampleWebEnv sampleCliEnv stoppedState
    "http://examplebucket" "examplebucket" rfl

/-- C2: the checked-set gate lets each URL through exactly once per run:
a first call on a fresh URL (no cancellation) marks it checked and issues
its probe request, and after any sequence of further checks a repeated
call for the same URL returns with the state unchanged and no request
issued, so no endpoint is probed twice. -/
theorem checked_gate_once (cfg : Config) (env : WebEnv) (st : ScanState)
    (url : String) (hstop : st.stop = false) (hnew : url ∉ st.checkedSet) :
    url ∈ ((_web_check cfg env st url).1).checkedSet ∧
    Req.httpGet url ∈ (_web_check cfg env st url).2 ∧
    ∀ later : List String,
      _web_check cfg env
          (runWebChecks cfg env (_web_check cfg env st url).1 later) url =
        (runWebChecks cfg env (_web_check cfg env st url).1 later, []) := by
  have hgate : ¬(url ∈ st.checkedSet ∨ st.stop = true) := by
    rintro (h | h)
    · exact hnew h
    · rw [hstop] at h
      cases h
  refine ⟨?_, ?_, ?_⟩
  · rw [web_check_checkedSet_of_fresh cfg env st url hgate]
    exact List.mem_cons_self _ _
  · unfold _web_check
    rw [if_neg hgate]
    exact webCheckBody_issues_fetch cfg env _ url
  · intro later
    apply web_check_of_checked
    apply runWebChecks_checkedSet_mono
    rw [web_check_checkedSet_of_fresh cfg env st url hgate]
    exact List.mem_cons_self _ _

/-- C2 witness: a fresh URL from the initial state, with one other URL
checked in between. -/
theorem checked_gate_once_witness :
    "http://examplebucket" ∈
      ((_web_check sampleCfg sampleWebEnv initialState
        "http://examplebucket").1).checkedSet ∧
    _web_check sampleCfg sampleWebEnv
        (runWebChecks sampleCfg sampleWebEnv
          (_web_check sampleCfg sampleWebEnv initialState
            "http://examplebucket").1 ["https://examplebucket"])
        "http://examplebucket" =
      (runWebChecks sampleCfg sampleWebEnv
        (_web_check sampleCfg sampleWebEnv initialState
          "http://examplebucket").1 ["https://examplebucket"], []) :=
  ⟨(checked_gate_once sampleCfg sampleWebEnv initialState
      "http://examplebucket" rfl (by simp [initialState])).1,
   (checked_gate_once sampleCfg sampleWebEnv initialState
      "http://examplebucket" rfl (by simp [initialState])).2.2
     ["https://examplebucket"]⟩

/-- C10: the Direct-Protocol channel records every finding with no region:
a `_web_check` step never changes any candidate's region set, and a
web-only run from the initial state ends with every candidate's region set
empty. -/
theorem web_channel_no_regions (cfg : Config) (env : WebEnv) (st : ScanState)
    (url c : String) (urls : List String) (c' : String) :
    regionsOf ((_web_check cfg env st url).1).foundBuckets c =
      regionsOf st.foundBuckets c ∧
    regionsOf (runWebChecks cfg env initialState urls).foundBuckets c' = [] := by
  refine ⟨web_check_regionsOf cfg env st url c, ?_⟩
  have key : ∀ (urls : List String) (st : ScanState) (x : String),
      regionsOf st.foundBuckets x = [] →
      regionsOf (runWebChecks cfg env st urls).foundBuckets x = [] := by
    intro urls
    induction urls with
    | nil => exact fun st x h => h
    | cons u us ih =>
      intro st x h
      exact ih _ _ (by rw [web_check_regionsOf]; exact h)
  exact key urls initialState c' rfl

/-- C10 witness: one concrete web-only step and run. -/
theorem web_channel_no_regions_witness :
    regionsOf ((_web_check sampleCfg sampleWebEnv initialState
        "http://examplebucket").1).foundBuckets "examplebucket" =
      regionsOf initialState.foundBuckets "examplebucket" ∧
    regionsOf (runWebChecks sampleCfg sampleWebEnv initialState
        ["http://examplebucket"]).foundBuckets "examplebucket" = [] :=
  web_channel_no_regions sampleCfg sampleWebEnv initialState
    "http://examplebucket" "examplebucket" ["http://examplebucket"]
    "examplebucket"

/-- C3 counterexample: with `"examplebucket"` recorded as found only under
region `"us-east-1"`, the no-region attempt is nevertheless skipped by
`_cli_probe` — with no request issued — although the exact
(bucket, no-region) pair (recorded under the label `"No Region"`) is not in
the found set for that bucket. -/
theorem cli_skip_no_region_cex :
    cliSkip [("examplebucket", ["us-east-1"])] "examplebucket" none = true ∧
    "No Region" ∉
      regionsOf [("examplebucket", ["us-east-1"])] "examplebucket" ∧
    cliRegionStep sampleCfg sampleCliEnv
        ⟨false, [], [("examplebucket", ["us-east-1"])], false, false⟩
        "examplebucket" none =
      (⟨false, [], [("examplebucket", ["us-east-1"])], false, false⟩, []) := by
  refine ⟨by decide, by decide, ?_⟩
  unfold cliRegionStep
  rw [if_neg (by decide), if_pos (by decide)]

/-- C3 amended: a per-region attempt of `_cli_probe` is skipped exactly when
the cancellation flag is set, or the region is explicit and that exact
(bucket, region) pair is in the found set, or it is the no-region attempt
and the bucket is present in the found map under any region at all; a
bucket found under one region is still attempted under every other explicit
region. -/
theorem cli_skip_spec (cfg : Config) (env : CliEnv) (st : ScanState)
    (bucket : String) (region : Option String) :
    (st.stop = true ∨ cliSkip st.foundBuckets bucket region = true →
      cliRegionStep cfg env st bucket region = (st, [])) ∧
    (st.stop = false → cliSkip st.foundBuckets bucket region = false →
      Req.cliLs bucket region ∈ (cliRegionStep cfg env st bucket region).2) ∧
    (∀ r, cliSkip st.foundBuckets bucket (some r) = true ↔
      containsKey st.foundBuckets bucket = true ∧
        r ∈ regionsOf st.foundBuckets bucket) ∧
    (cliSkip st.foundBuckets bucket none = true ↔
      containsKey st.foundBuckets bucket = true) := by
  refine ⟨?_, ?_, ?_, ?_⟩
  · rintro (h | h)
    · unfold cliRegionStep
      rw [if_pos h]
    · unfold cliRegionStep
      by_cases hs : st.stop = true
      · rw [if_pos hs]
      · rw [if_neg hs, if_pos h]
  · intro hs hsk
    unfold cliRegionStep
    rw [if_neg (by simp [hs]), if_neg (by simp [hsk])]
    split <;> exact List.mem_cons_self _ _
  · intro r
    unfold cliSkip
    simp
  · unfold cliSkip
    simp

/-- C3 witness for the amended claim: a stopped step is skipped, and a
bucket found under `"eu-west-1"` is still attempted under `"us-east-1"`. -/
theorem cli_skip_spec_witness :
    cliRegionStep sampleCfg sampleCliEnv stoppedState "examplebucket" none =
      (stoppedState, []) ∧
    Req.cliLs "examplebucket" (some "us-east-1") ∈
      (cliRegionStep sampleCfg sampleCliEnv
        ⟨false, [], [("examplebucket", ["eu-west-1"])], false, false⟩
        "examplebucket" (some "us-east-1")).2 :=
  ⟨(cli_skip_spec sampleCfg sampleCliEnv stoppedState "examplebucket"
      none).1 (Or.inl rfl),
   (cli_skip_spec sampleCfg sampleCliEnv
      ⟨false, [], [("examplebucket", ["eu-west-1"])], false, false⟩
      "examplebucket" (some "us-east-1")).2.1 rfl (by decide)⟩

set_option maxRecDepth 8192 in
/-- C4 counterexample: in a name-variations run on base `"examplebucket"`,
a listing finding on the endpoint of the variation `"examplebucket-dev"`
is recorded under the base `"examplebucket"`, not under the variation whose
endpoint it was, because the base is the first entry of the variation list
and occurs as a substring of the URL. -/
theorem web_attribution_cex :
    ("examplebucket-dev" ∈ cexCfg.variations) ∧
    containsKey ((_web_check cexCfg listingEnv initialState
        "http://examplebucket-dev.s3.amazonaws.com").1).foundBuckets
      "examplebucket-dev" = false ∧
    containsKey ((_web_check cexCfg listingEnv initialState
        "http://examplebucket-dev.s3.amazonaws.com").1).foundBuckets
      "examplebucket" = true := by
  refine ⟨mem_dedupFirst_of_mem (by simp), by decide, by decide⟩

/-- C4 amended: the web channel records a finding under the first entry of
the variation list that occurs as a substring of the endpoint URL (falling
back to the base name); since the base name is the first variation, a
finding is recorded under the base name — not the variation the endpoint
belongs to — whenever the base name occurs in the URL. -/
theorem web_attribution_spec (cfg : Config) (env : WebEnv) (st : ScanState)
    (url : String) (hvar : cfg.variations.head? = some cfg.base)
    (hbase : cfg.base ≠ "") (hurl : strContains url cfg.base = true) :
    resolveCandidate cfg.variations cfg.base url = cfg.base ∧
    (((_web_check cfg env st url).1).foundBuckets = st.foundBuckets ∨
      containsKey ((_web_check cfg env st url).1).foundBuckets cfg.base
        = true) := by
  have hres : resolveCandidate cfg.variations cfg.base url = cfg.base := by
    unfold resolveCandidate
    cases hv : cfg.variations with
    | nil => rw [hv] at hvar; cases hvar
    | cons a l =>
      rw [hv, List.head?_cons] at hvar
      obtain rfl : a = cfg.base := Option.some.inj hvar
      rw [List.find?_cons_of_pos _ hurl]
      simp [hbase]
  refine ⟨hres, ?_⟩
  unfold _web_check
  split
  · left; rfl
  · rcases webCheckBody_state_cases cfg env
      { st with checkedSet := url :: st.checkedSet } url with h | h
    · left
      rw [h]
    · right
      rw [h, hres, mark_found_foundBuckets_none_region _ _ _ hbase]
      exact containsKey_setdefault_self _ _

set_option maxRecDepth 8192 in
/-- C4 witness for the amended claim, at the variation endpoint
`"http://examplebucket-dev.s3.amazonaws.com"`. -/
theorem web_attribution_spec_witness :
    resolveCandidate cexCfg.variations cexCfg.base
      "http://examplebucket-dev.s3.amazonaws.com" = cexCfg.base ∧
    (((_web_check cexCfg listingEnv initialState
        "http://examplebucket-dev.s3.amazonaws.com").1).foundBuckets =
          initialState.foundBuckets ∨
      containsKey ((_web_check cexCfg listingEnv initialState
        "http://examplebucket-dev.s3.amazonaws.com").1).foundBuckets
          cexCfg.base = true) :=
  web_attribution_spec cexCfg listingEnv initialState
    "http://examplebucket-dev.s3.amazonaws.com" rfl (by decide) (by decide)

end S3Regions
